import Mathlib

/-!
# The provider pattern (`src/exercises/11.js`)

A shallow embedding of the `Toggle` provider component, its guarded
`Toggle.Consumer`, and the `Usage` tree built from `Layer1` .. `Layer4`.

The component is written against React.  The three React services it uses
(`setState` with an updater and a completion callback, `createContext` with
its Provider / Consumer pair, and element evaluation) are not part of the
repository; they are modelled below, each in a definition that says so.
-/

namespace ToggleProvider

/-! ## JavaScript values -/

/-- The object held in `this.state`: `{on, toggle}`.  `ref` is the identity of
the object (two objects are reference-equal iff they carry the same `ref`),
`isOn` is the field `on` (a reserved word in Lean),
`toggle` is the identity of the instance whose bound `toggle` arrow function
the field holds. -/
structure StateObj where
  ref : Nat
  isOn : Bool
  toggle : Nat
deriving DecidableEq, Repr

/-- The JavaScript values that props, context values and callback arguments
range over.  `fn id` is a function defined by the caller of the component
(identified by `id`), `toggleFn i` is the bound `toggle` arrow function of
Toggle instance `i`, `state o` is a `{on, toggle}` state object and
`object ref` is any other object (one that has neither an `on` nor a `toggle`
property). -/
inductive JSVal where
  | undefined
  | null
  | bool (b : Bool)
  | num (n : Int)
  | str (s : String)
  | fn (id : Nat)
  | toggleFn (inst : Nat)
  | state (o : StateObj)
  | object (ref : Nat)
deriving DecidableEq, Repr

/-- JavaScript truthiness: `!v` is `true` exactly when `truthy v` is `false`. -/
def truthy : JSVal → Bool
  | .undefined => false
  | .null => false
  | .bool b => b
  | .num n => n != 0
  | .str s => s != ""
  | .fn _ => true
  | .toggleFn _ => true
  | .state _ => true
  | .object _ => true

/-- The errors a JavaScript evaluation can raise here: `new Error(msg)`, the
`TypeError` of calling something that is not a function, and the report of a
state update requested from inside a completion callback (which the model does
not follow). -/
inductive JSError where
  | error (msg : String)
  | typeError (msg : String)
  | reentrant
deriving DecidableEq, Repr

/-- The props of an element, without `children`: an ordered list of
attributes.  As in an object literal, a later entry for a key replaces an
earlier one. -/
abbrev Props := List (String × JSVal)

/-- Property read `props[k]`: the last entry for `k`, `undefined` when there is
none. -/
def getProp (props : Props) (k : String) : JSVal :=
  props.foldl (fun acc kv => if kv.1 = k then kv.2 else acc) .undefined

/-- One recorded invocation of a caller-defined function. -/
structure Call where
  fnId : Nat
  arg : JSVal
deriving DecidableEq, Repr

/-- The call `f(arg)` for a value `f` held in a prop of the instance `self`.
A caller-defined function is invoked (the invocation is appended to the log;
such a function does not raise); the bound `toggle` of another instance is
called and completes (it queues a request on that other instance and leaves
this one and its log as they are); calling a value that is not a function
raises a `TypeError`; the instance's own `toggle` would request a state update
from inside its own completion callback and is reported as `reentrant`. -/
def callFunction (self : Nat) (f : JSVal) (arg : JSVal) (log : List Call) :
    Except JSError (List Call) :=
  match f with
  | .fn id => .ok (log ++ [⟨id, arg⟩])
  | .toggleFn i => if i = self then .error .reentrant else .ok log
  | _ => .error (.typeError "this.props.onToggle is not a function")

/-! ## The Toggle instance and React's `setState` -/

/-- The object an updater returns: the fields it sets (`({on}) => ({on: !on})`
sets `on` only). -/
structure Patch where
  isOn : Option Bool := none
  toggle : Option Nat := none

/-- The two arguments of one `setState(updater, callback)` request.  The
callback is evaluated later, on the instance (`this`, given by its identity)
against the props, the state and the call log of that later moment. -/
structure Update where
  updater : StateObj → Patch
  callback : Nat → Props → StateObj → List Call → Except JSError (List Call)

/-- A mounted `Toggle` instance: its props (`children` apart), `this.state`,
the `setState` requests not yet processed, the next free object identity, the
log of calls made to caller-defined functions, and the identity of the
instance (which names its bound `toggle`). -/
structure Toggle where
  props : Props
  state : StateObj
  pending : List Update
  nextRef : Nat
  calls : List Call
  self : Nat

/-- Modelled from the spec: React's `this.setState(updater, callback)`, which
is not part of the repository.  The request is queued behind the requests
already pending; nothing is computed at the time of the call. -/
def setState (t : Toggle) (u : Update) : Toggle :=
  { t with pending := t.pending ++ [u] }

/-- Modelled from the spec: the merge React performs with an updater's result,
`Object.assign({}, prevState, patch)`: a new object (identity `ref`) whose
fields are those of `prev` except where the patch sets one. -/
def assign (ref : Nat) (prev : StateObj) (p : Patch) : StateObj :=
  { ref := ref, isOn := p.isOn.getD prev.isOn, toggle := p.toggle.getD prev.toggle }

/-- Modelled from the spec: React applying one queued request: the updater
runs on the state reached so far and its result is merged into a new object. -/
def applyUpdate (acc : Toggle) (u : Update) : Toggle :=
  { acc with
    state := assign acc.nextRef acc.state (u.updater acc.state)
    nextRef := acc.nextRef + 1 }

/-- Modelled from the spec: React processing the queue of a component.  The
updaters run in the order they were requested, each on the state its
predecessor produced, and the last result becomes `this.state`.  With an empty
queue `this.state` stays the very same object. -/
def processUpdateQueue (t : Toggle) : Toggle :=
  t.pending.foldl applyUpdate { t with pending := [] }

/-- Modelled from the spec: React running the completion callbacks of the
processed requests, in order, once the new state is committed: each callback
sees the committed `this.state`.  The first callback that raises ends the
commit with its error. -/
def commitCallbacks (cbs : List Update) (t : Toggle) : Except JSError Toggle :=
  match cbs with
  | [] => .ok t
  | u :: rest =>
    match u.callback t.self t.props t.state t.calls with
    | .ok log => commitCallbacks rest { t with calls := log }
    | .error e => .error e

/-- Modelled from the spec: one React commit of the instance: process every
pending request, then run their callbacks. -/
def flush (t : Toggle) : Except JSError Toggle :=
  commitCallbacks t.pending (processUpdateQueue t)

/-- The class field `state = {on: false, toggle: this.toggle}` of a freshly
constructed instance with identity `self` and props `props`; the state object
gets identity `0`. -/
def Toggle.new (self : Nat) (props : Props) : Toggle :=
  { props := props
    state := { ref := 0, isOn := false, toggle := self }
    pending := []
    nextRef := 1
    calls := []
    self := self }

/-- The updater of `toggle`: `({on}) => ({on: !on})`. -/
def Toggle.updater (s : StateObj) : Patch :=
  { isOn := some (!s.isOn) }

/-- The completion callback of `toggle`:
`() => this.props.onToggle(this.state.on)`. -/
def Toggle.callback (self : Nat) (props : Props) (state : StateObj) (log : List Call) :
    Except JSError (List Call) :=
  callFunction self (getProp props "onToggle") (.bool state.isOn) log

/-- The two arguments `toggle` passes to `setState`. -/
def Toggle.request : Update :=
  { updater := Toggle.updater, callback := Toggle.callback }

/-- The method `toggle = () => this.setState(({on}) => ({on: !on}),
() => this.props.onToggle(this.state.on))`. -/
def Toggle.toggle (t : Toggle) : Toggle :=
  setState t Toggle.request

/-- A `toggle()` call that is committed before anything else happens. -/
def toggleCommitted (t : Toggle) : Except JSError Toggle :=
  flush (Toggle.toggle t)

/-- The instance after `n` successive `toggle()` calls, each committed before
the next is issued. -/
def toggleSeq : Nat → Toggle → Except JSError Toggle
  | 0, t => .ok t
  | n + 1, t =>
    match toggleCommitted t with
    | .ok t1 => toggleSeq n t1
    | .error e => .error e

/-- The instance after `k` `toggle()` calls issued with no commit in between. -/
def toggleQueued : Nat → Toggle → Toggle
  | 0, t => t
  | k + 1, t => toggleQueued k (Toggle.toggle t)

/-- What can happen to a mounted instance: a `toggle()` call, or a React
commit. -/
inductive Event where
  | toggle
  | commit
deriving DecidableEq, Repr

/-- The instance after a sequence of events; a commit that raises ends the
run. -/
def run : List Event → Toggle → Except JSError Toggle
  | [], t => .ok t
  | .toggle :: es, t => run es (Toggle.toggle t)
  | .commit :: es, t =>
    match flush t with
    | .ok t1 => run es t1
    | .error e => .error e

/-- The state object after `i` applications of the updater of `toggle`, each
to the result of its predecessor, starting from `s`. -/
def nthState (s : StateObj) : Nat → StateObj
  | 0 => s
  | i + 1 => assign (s.ref + i + 1) (nthState s i) (Toggle.updater (nthState s i))

/-- The value of `on` that the `i`-th toggle after `s` produces. -/
def nthToggleValue (s : StateObj) (i : Nat) : Bool :=
  (nthState s i).isOn

/-- The callback arguments of `n` toggles committed one at a time from `on = b`:
the `i`-th (counted from `0`) is `b XOR (i is even)`. -/
def seqArgs (f : Nat) (b : Bool) (n : Nat) : List Call :=
  (List.range n).map (fun i => ⟨f, .bool (xor b (decide (i % 2 = 0)))⟩)

/-- Whether an attribute named `k` is among the props. -/
def hasAttr (props : Props) (k : String) : Bool :=
  props.any (fun kv => kv.1 == k)

/-! ## Trees, the context channel and their evaluation -/

/-- A leaf of the rendered output: a text, or the external `Switch` control
with the two props it was given. -/
inductive Leaf where
  | text (s : String)
  | switch (isOn : JSVal) (onClick : JSVal)
deriving DecidableEq, Repr

/-- What a component returns and what can be passed as `children`: nothing, a
text, a function (a render prop), a `Fragment` of two nodes, a `Switch`, a
`ToggleContext.Provider` with its attributes, a `ToggleContext.Consumer` with
its render function, or `raise e`, which stands for an evaluation that threw
`e` where a node was to be returned. -/
inductive Node where
  | empty
  | text (s : String)
  | func (f : JSVal → Node)
  | fragment (first second : Node)
  | switch (isOn onClick : JSVal)
  | provider (attrs : Props) (children : Node)
  | contextConsumer (render : JSVal → Node)
  | raise (e : JSError)

/-- The default of `const ToggleContext = React.createContext()`: called
without an argument, so a Consumer with no Provider above it sees
`undefined`. -/
def ToggleContext.defaultValue : JSVal := .undefined

/-- Modelled from the spec: React evaluating a tree, which is not part of the
repository.  `ctx` is the value of the nearest enclosing
`ToggleContext.Provider` (its `value` attribute), or the default of the
context when there is none; a Consumer calls its render function with it and
the result is evaluated in the same scope.  A function left as a child renders
nothing, a Fragment renders its children in order, a thrown error ends the
evaluation. -/
def evalNode : JSVal → Node → Except JSError (List Leaf)
  | _, .empty => .ok []
  | _, .text s => .ok [.text s]
  | _, .func _ => .ok []
  | ctx, .fragment a b =>
    match evalNode ctx a with
    | .error e => .error e
    | .ok x =>
      match evalNode ctx b with
      | .error e => .error e
      | .ok y => .ok (x ++ y)
  | _, .switch o c => .ok [.switch o c]
  | _, .provider attrs ch => evalNode (getProp attrs "value") ch
  | ctx, .contextConsumer r => evalNode ctx (r ctx)
  | _, .raise e => .error e

/-- Evaluation of a tree mounted at the root, with no Provider above it. -/
def mountTree (n : Node) : Except JSError (List Leaf) :=
  evalNode ToggleContext.defaultValue n

/-- The error thrown by the guard of `ToggleConsumer`. -/
def usageError : JSError :=
  .error "Toggle.Consumer cannot be rendered outside the Toggle component"

/-- The call `props.children(context)`: a function child is applied, anything
else is not callable. -/
def callChildren (children : Node) (context : JSVal) : Node :=
  match children with
  | .func f => f context
  | _ => .raise (.typeError "props.children is not a function")

/-- The arrow function `context => ...` inside `ToggleConsumer`:
`if (!context) throw new Error(...)`, then `return props.children(context)`. -/
def ToggleConsumer.guard (children : Node) (context : JSVal) : Node :=
  if !truthy context then .raise usageError
  else callChildren children context

/-- The function component `ToggleConsumer(props)`, also reachable as
`Toggle.Consumer`: a `ToggleContext.Consumer` whose render function is the
guard.  Of the props only `children` is modelled: the others are spread onto
`ToggleContext.Consumer`, which reads none of them. -/
def ToggleConsumer (children : Node) : Node :=
  .contextConsumer (ToggleConsumer.guard children)

/-- The static member `Toggle.Consumer = ToggleConsumer`. -/
def Toggle.Consumer : Node → Node := ToggleConsumer

/-- The expression `typeof children === 'function' ? children(this.state) :
children` of `render`. -/
def Toggle.ui (t : Toggle) (children : Node) : Node :=
  match children with
  | .func f => f (.state t.state)
  | c => c

/-- The attributes `value={this.state} {...rest}` that `render` gives the
Provider, where `rest` is `this.props` without `children`: the spread comes
after `value`. -/
def Toggle.providerAttrs (t : Toggle) : Props :=
  ("value", .state t.state) :: t.props

/-- The method `render()` of `Toggle`. -/
def Toggle.render (t : Toggle) (children : Node) : Node :=
  .provider (Toggle.providerAttrs t) (Toggle.ui t children)

/-- The value a mounted Toggle broadcasts to the Consumers below it: the
`value` attribute of the Provider it renders. -/
def Toggle.broadcast (t : Toggle) : JSVal :=
  getProp (Toggle.providerAttrs t) "value"

/-- Property read `v.k` as done by the destructuring patterns `({on})` and
`({on, toggle})`: a state object has `on` and `toggle`, no other value here
has them. -/
def JSVal.field (v : JSVal) (k : String) : JSVal :=
  match v with
  | .state o =>
    if k = "on" then .bool o.isOn
    else if k = "toggle" then .toggleFn o.toggle
    else .undefined
  | _ => .undefined

/-- A function whose parameter is a destructuring pattern: applied to
`undefined` or `null` it raises a `TypeError`, otherwise the body runs. -/
def destructuring (body : JSVal → Node) (v : JSVal) : Node :=
  match v with
  | .undefined => .raise (.typeError "Cannot destructure undefined")
  | .null => .raise (.typeError "Cannot destructure null")
  | _ => body v

/-- The component `Layer4`. -/
def Layer4 : Node :=
  Toggle.Consumer
    (.func (destructuring fun c => .switch (c.field "on") (c.field "toggle")))

/-- The component `Layer3`. -/
def Layer3 : Node := Layer4

/-- The component `Layer2`. -/
def Layer2 : Node :=
  Toggle.Consumer
    (.func (destructuring fun c =>
      .fragment
        (.text (if truthy (c.field "on") then "The button is on" else "The button is off"))
        Layer3))

/-- The component `Layer1`. -/
def Layer1 : Node := Layer2

/-- The default of `Usage`, `(...args) => console.log('onToggle', ...args)`:
a caller-defined function like any other, with identity `0`. -/
def consoleLogStub : JSVal := .fn 0

/-- Whether a children value is callable (`typeof children === 'function'`). -/
def isFunction : Node → Bool
  | .func _ => true
  | _ => false

/-- A `<Toggle ...>children</Toggle>` element: the props and the children the
instance is constructed with. -/
structure ToggleElement where
  props : Props
  children : Node

/-- The component `Usage({onToggle = (...args) => console.log(...)})`: the
default applies when `onToggle` is `undefined`. -/
def Usage (onToggle : JSVal) : ToggleElement :=
  { props := [("onToggle", if onToggle = .undefined then consoleLogStub else onToggle)]
    children := Layer1 }

/-- The instance React constructs for a Toggle element. -/
def ToggleElement.mount (e : ToggleElement) (self : Nat) : Toggle :=
  Toggle.new self e.props

/-- What a Toggle element mounted at the root renders when its instance is
`t`. -/
def ToggleElement.view (e : ToggleElement) (t : Toggle) : Except JSError (List Leaf) :=
  mountTree (Toggle.render t e.children)

/-- Modelled from the spec: the external `Switch` control calling its
`onClick` prop `v` when it is clicked, inside an event handler of the instance
`t`: the instance's own `toggle` runs `Toggle.toggle`,
a caller-defined function is recorded, anything else is not callable. -/
def invoke (v : JSVal) (t : Toggle) : Except JSError Toggle :=
  match v with
  | .toggleFn i => if i = t.self then .ok (Toggle.toggle t) else .ok t
  | .fn id => .ok { t with calls := t.calls ++ [⟨id, .undefined⟩] }
  | _ => .error (.typeError "onClick is not a function")

/-- Modelled from the spec: one click on a `Switch` whose `onClick` prop is
`v`: the handler runs, then React commits. -/
def click (v : JSVal) (t : Toggle) : Except JSError Toggle :=
  match invoke v t with
  | .ok t1 => flush t1
  | .error e => .error e

/-! ## The request queue -/

theorem toggle_pending (t : Toggle) :
    (Toggle.toggle t).pending = t.pending ++ [Toggle.request] := rfl

theorem toggleQueued_eq (k : Nat) (t : Toggle) :
    toggleQueued k t = { t with pending := t.pending ++ List.replicate k Toggle.request } := by
  induction k generalizing t with
  | zero => simp [toggleQueued]
  | succ k ih =>
    simp only [toggleQueued, ih, Toggle.toggle, setState, List.replicate_succ,
      List.append_assoc, List.singleton_append]

theorem xor_not_parity (b : Bool) (k : Nat) :
    xor (!b) (decide (k % 2 = 1)) = xor b (decide ((k + 1) % 2 = 1)) := by
  rcases Nat.mod_two_eq_zero_or_one k with h | h
  · have h1 : (k + 1) % 2 = 1 := by omega
    simp [h, h1]
  · have h1 : (k + 1) % 2 = 0 := by omega
    simp [h, h1]

theorem foldl_request (k : Nat) (acc : Toggle) :
    ((List.replicate k Toggle.request).foldl applyUpdate acc).state.isOn
        = xor acc.state.isOn (decide (k % 2 = 1))
      ∧ ((List.replicate k Toggle.request).foldl applyUpdate acc).state.toggle = acc.state.toggle
      ∧ ((List.replicate k Toggle.request).foldl applyUpdate acc).props = acc.props
      ∧ ((List.replicate k Toggle.request).foldl applyUpdate acc).calls = acc.calls
      ∧ ((List.replicate k Toggle.request).foldl applyUpdate acc).pending = acc.pending
      ∧ ((List.replicate k Toggle.request).foldl applyUpdate acc).self = acc.self
      ∧ ((List.replicate k Toggle.request).foldl applyUpdate acc).nextRef = acc.nextRef + k := by
  induction k generalizing acc with
  | zero => simp
  | succ k ih =>
    obtain ⟨h1, h2, h3, h4, h5, h6, h7⟩ := ih (applyUpdate acc Toggle.request)
    simp only [List.replicate_succ, List.foldl_cons]
    refine ⟨?_, ?_, ?_, ?_, ?_, ?_, ?_⟩
    · rw [h1, ← xor_not_parity]
      simp [applyUpdate, assign, Toggle.request, Toggle.updater]
    · rw [h2]; simp [applyUpdate, assign, Toggle.request, Toggle.updater]
    · rw [h3]; rfl
    · rw [h4]; rfl
    · rw [h5]; rfl
    · rw [h6]; rfl
    · rw [h7]; simp [applyUpdate]; omega

theorem commitCallbacks_request (k : Nat) (t : Toggle) (f : Nat)
    (hf : getProp t.props "onToggle" = .fn f) :
    commitCallbacks (List.replicate k Toggle.request) t
      = .ok { t with calls := t.calls ++ List.replicate k ⟨f, .bool t.state.isOn⟩ } := by
  induction k generalizing t with
  | zero => simp [commitCallbacks]
  | succ k ih =>
    simp only [List.replicate_succ, commitCallbacks, Toggle.request, Toggle.callback, hf,
      callFunction]
    have := ih { t with calls := t.calls ++ [⟨f, .bool t.state.isOn⟩] } hf
    simp only [Toggle.request] at this
    rw [this]
    simp

/-- A commit of `k` queued toggle requests on an instance whose `onToggle` is a
caller-defined function: it succeeds, `on` has been flipped `k` times, the
`toggle` field and the props are untouched, nothing is pending, and the
callback has run `k` times, each time with the committed value. -/
theorem flush_requests (t : Toggle) (f k : Nat)
    (hf : getProp t.props "onToggle" = .fn f)
    (hp : t.pending = List.replicate k Toggle.request) :
    ∃ t1, flush t = .ok t1
      ∧ t1.state.isOn = xor t.state.isOn (decide (k % 2 = 1))
      ∧ t1.state.toggle = t.state.toggle
      ∧ t1.props = t.props
      ∧ t1.pending = []
      ∧ t1.self = t.self
      ∧ t1.calls = t.calls ++ List.replicate k ⟨f, .bool t1.state.isOn⟩ := by
  obtain ⟨h1, h2, h3, h4, h5, h6, _⟩ := foldl_request k { t with pending := [] }
  have hq : processUpdateQueue t
      = (List.replicate k Toggle.request).foldl applyUpdate { t with pending := [] } := by
    simp only [processUpdateQueue, hp]
  have hf2 : getProp (processUpdateQueue t).props "onToggle" = .fn f := by
    rw [hq, h3]; exact hf
  refine ⟨{ processUpdateQueue t with
      calls := (processUpdateQueue t).calls
        ++ List.replicate k ⟨f, .bool (processUpdateQueue t).state.isOn⟩ }, ?_, ?_⟩
  · simp only [flush]
    rw [hp, commitCallbacks_request k _ f hf2]
  · simp only [hq]
    exact ⟨h1, h2, h3, h5, h6, by rw [h4]⟩

theorem toggleCommitted_ok (t : Toggle) (f : Nat)
    (hf : getProp t.props "onToggle" = .fn f) (hp : t.pending = []) :
    ∃ t1, toggleCommitted t = .ok t1
      ∧ t1.state.isOn = (!t.state.isOn)
      ∧ t1.state.toggle = t.state.toggle
      ∧ t1.props = t.props
      ∧ t1.pending = []
      ∧ t1.self = t.self
      ∧ t1.calls = t.calls ++ [⟨f, .bool (!t.state.isOn)⟩] := by
  have hp1 : (Toggle.toggle t).pending = List.replicate 1 Toggle.request := by
    rw [toggle_pending, hp]; rfl
  obtain ⟨t1, h0, h1, h2, h3, h4, h5, h6⟩ := flush_requests (Toggle.toggle t) f 1 hf hp1
  have h1b : t1.state.isOn = (!t.state.isOn) := by
    rw [h1]; show xor t.state.isOn (decide (1 % 2 = 1)) = _; simp
  refine ⟨t1, h0, h1b, h2, h3, h4, h5, ?_⟩
  rw [h6, h1b]; rfl

theorem xor_even_succ (b : Bool) (i : Nat) :
    xor b (decide ((i + 1) % 2 = 0)) = xor (!b) (decide (i % 2 = 0)) := by
  rcases Nat.mod_two_eq_zero_or_one i with h | h
  · have h1 : (i + 1) % 2 = 1 := by omega
    simp [h, h1]
  · have h1 : (i + 1) % 2 = 0 := by omega
    simp [h, h1]

theorem seqArgs_succ (f : Nat) (b : Bool) (n : Nat) :
    seqArgs f b (n + 1) = ⟨f, .bool (!b)⟩ :: seqArgs f (!b) n := by
  simp only [seqArgs, List.range_succ_eq_map, List.map_cons, List.map_map]
  congr 1
  · simp
  · apply List.map_congr_left
    intro i _
    simp only [Function.comp, Nat.succ_eq_add_one, xor_even_succ]

theorem toggleSeq_ok (n : Nat) (t : Toggle) (f : Nat)
    (hf : getProp t.props "onToggle" = .fn f) (hp : t.pending = []) :
    ∃ t1, toggleSeq n t = .ok t1
      ∧ t1.state.isOn = xor t.state.isOn (decide (n % 2 = 1))
      ∧ t1.state.toggle = t.state.toggle
      ∧ t1.props = t.props
      ∧ t1.pending = []
      ∧ t1.self = t.self
      ∧ t1.calls = t.calls ++ seqArgs f t.state.isOn n := by
  induction n generalizing t with
  | zero => exact ⟨t, rfl, by simp, rfl, rfl, hp, rfl, by simp [seqArgs]⟩
  | succ n ih =>
    obtain ⟨t1, h0, h1, h2, h3, h4, h5, h6⟩ := toggleCommitted_ok t f hf hp
    obtain ⟨t2, g0, g1, g2, g3, g4, g5, g6⟩ := ih t1 (by rw [h3]; exact hf) h4
    refine ⟨t2, ?_, ?_, by rw [g2, h2], by rw [g3, h3], g4, by rw [g5, h5], ?_⟩
    · simp only [toggleSeq, h0, g0]
    · rw [g1, h1, xor_not_parity]
    · rw [g6, h6, h1, seqArgs_succ, List.append_assoc]; rfl

/-! ## The toggle state machine -/

/-- C1: on an instance with nothing pending whose `onToggle` is a
caller-defined function, `n` successive `toggle()` calls, each committed before
the next, succeed and leave `on` equal to `b XOR (n is odd)` where `b` was the
starting value; from a freshly constructed instance (`on = false`) the result
is `n mod 2 == 1`; two calls give back the starting value. -/
theorem toggle_parity (t : Toggle) (f n : Nat)
    (hf : getProp t.props "onToggle" = .fn f) (hp : t.pending = []) :
    (∃ t1, toggleSeq n t = .ok t1 ∧ t1.state.isOn = xor t.state.isOn (decide (n % 2 = 1)))
      ∧ (∃ t1, toggleSeq n (Toggle.new t.self t.props) = .ok t1
          ∧ t1.state.isOn = decide (n % 2 = 1))
      ∧ (∃ t2, toggleSeq 2 t = .ok t2 ∧ t2.state.isOn = t.state.isOn) := by
  refine ⟨?_, ?_, ?_⟩
  · obtain ⟨t1, h0, h1, _⟩ := toggleSeq_ok n t f hf hp
    exact ⟨t1, h0, h1⟩
  · obtain ⟨t1, h0, h1, _⟩ := toggleSeq_ok n (Toggle.new t.self t.props) f hf rfl
    refine ⟨t1, h0, ?_⟩
    rw [h1]; simp [Toggle.new]
  · obtain ⟨t2, h0, h1, _⟩ := toggleSeq_ok 2 t f hf hp
    refine ⟨t2, h0, ?_⟩
    rw [h1]; simp

/-- Witness of C1: three committed toggles on a fresh instance. -/
theorem toggle_parity_witness :
    getProp (Toggle.new 1 [("onToggle", .fn 5)]).props "onToggle" = .fn 5
      ∧ (Toggle.new 1 [("onToggle", .fn 5)]).pending = []
      ∧ ∃ t1, toggleSeq 3 (Toggle.new 1 [("onToggle", .fn 5)]) = .ok t1
          ∧ t1.state.isOn = xor false (decide (3 % 2 = 1)) :=
  ⟨by decide, rfl, (toggle_parity (Toggle.new 1 [("onToggle", .fn 5)]) 5 3 (by decide) rfl).1⟩

/-- C2 as stated fails: two `toggle()` calls issued before any commit, from
`on = false`.  The first toggle produces `true`, the second `false`, but both
invocations of `onToggle` receive the committed value `false`. -/
theorem onToggle_batched_counterexample :
    ∃ t1, flush (toggleQueued 2 (Toggle.new 1 [("onToggle", .fn 5)])) = .ok t1
      ∧ t1.calls = [⟨5, .bool false⟩, ⟨5, .bool false⟩]
      ∧ nthToggleValue (Toggle.new 1 [("onToggle", .fn 5)]).state 1 = true
      ∧ nthToggleValue (Toggle.new 1 [("onToggle", .fn 5)]).state 2 = false
      ∧ t1.calls ≠
          [⟨5, .bool (nthToggleValue (Toggle.new 1 [("onToggle", .fn 5)]).state 1)⟩,
           ⟨5, .bool (nthToggleValue (Toggle.new 1 [("onToggle", .fn 5)]).state 2)⟩] :=
  ⟨_, rfl, by decide, by decide, by decide, by decide⟩

theorem nthState_isOn (s : StateObj) (i : Nat) :
    (nthState s i).isOn = xor s.isOn (decide (i % 2 = 1)) := by
  induction i with
  | zero => simp [nthState]
  | succ i ih =>
    rw [← xor_not_parity]
    simp only [nthState, assign, Toggle.updater, Option.getD_some, ih]
    cases s.isOn <;> cases decide (i % 2 = 1) <;> rfl

theorem seqArgs_eq (f : Nat) (s : StateObj) (n : Nat) :
    seqArgs f s.isOn n
      = (List.range n).map (fun i => ⟨f, .bool (nthToggleValue s (i + 1))⟩) := by
  simp only [seqArgs]
  apply List.map_congr_left
  intro i _
  have h : decide ((i + 1) % 2 = 1) = decide (i % 2 = 0) := by
    rcases Nat.mod_two_eq_zero_or_one i with h | h
    · have h1 : (i + 1) % 2 = 1 := by omega
      simp [h, h1]
    · have h1 : (i + 1) % 2 = 0 := by omega
      simp [h, h1]
  simp only [nthToggleValue, nthState_isOn, h]

/-- C2, amended: on an instance with nothing pending whose `onToggle` is a
caller-defined function `f`, `k` `toggle()` calls followed by a commit invoke
`f` exactly `k` times, every time with the value of `on` that is committed
when the callbacks run (`b XOR (k is odd)`); when each call is committed before
the next is issued, the `i`-th invocation receives the value the `i`-th toggle
produced. -/
theorem onToggle_once_per_toggle (t : Toggle) (f k : Nat)
    (hf : getProp t.props "onToggle" = .fn f) (hp : t.pending = []) :
    (∃ t1, flush (toggleQueued k t) = .ok t1
        ∧ t1.state.isOn = xor t.state.isOn (decide (k % 2 = 1))
        ∧ t1.calls = t.calls ++ List.replicate k ⟨f, .bool t1.state.isOn⟩)
      ∧ (∃ t2, toggleSeq k t = .ok t2
        ∧ t2.calls = t.calls
            ++ (List.range k).map (fun i => ⟨f, .bool (nthToggleValue t.state (i + 1))⟩)) := by
  constructor
  · have hq : (toggleQueued k t).pending = List.replicate k Toggle.request := by
      rw [toggleQueued_eq]; simp [hp]
    have hf1 : getProp (toggleQueued k t).props "onToggle" = .fn f := by
      rw [toggleQueued_eq]; exact hf
    obtain ⟨t1, h0, h1, _, _, _, _, h6⟩ := flush_requests (toggleQueued k t) f k hf1 hq
    refine ⟨t1, h0, ?_, ?_⟩
    · rw [h1, toggleQueued_eq]
    · rw [h6, toggleQueued_eq]
  · obtain ⟨t2, h0, _, _, _, _, _, h6⟩ := toggleSeq_ok k t f hf hp
    exact ⟨t2, h0, by rw [h6, seqArgs_eq]⟩

/-- Witness of the amended C2: two toggles on a fresh instance. -/
theorem onToggle_once_per_toggle_witness :
    getProp (Toggle.new 1 [("onToggle", .fn 5)]).props "onToggle" = .fn 5
      ∧ (Toggle.new 1 [("onToggle", .fn 5)]).pending = []
      ∧ ∃ t2, toggleSeq 2 (Toggle.new 1 [("onToggle", .fn 5)]) = .ok t2
          ∧ t2.calls = (Toggle.new 1 [("onToggle", .fn 5)]).calls
            ++ (List.range 2).map (fun i =>
                ⟨5, .bool (nthToggleValue (Toggle.new 1 [("onToggle", .fn 5)]).state (i + 1))⟩) :=
  ⟨by decide, rfl,
    (onToggle_once_per_toggle (Toggle.new 1 [("onToggle", .fn 5)]) 5 2 (by decide) rfl).2⟩

/-- C3: on an instance with nothing pending whose `onToggle` is a
caller-defined function, `k` `toggle()` calls issued before any commit are all
applied, each to the result of its predecessor: the committed `on` is the one
that committing the `k` toggles one at a time gives, `b XOR (k is odd)`. -/
theorem queued_toggles_not_lost (t : Toggle) (f k : Nat)
    (hf : getProp t.props "onToggle" = .fn f) (hp : t.pending = []) :
    ∃ t1 t2, flush (toggleQueued k t) = .ok t1 ∧ toggleSeq k t = .ok t2
      ∧ t1.state.isOn = t2.state.isOn
      ∧ t1.state.isOn = xor t.state.isOn (decide (k % 2 = 1))
      ∧ t1.state.isOn = nthToggleValue t.state k
      ∧ t1.pending = [] := by
  have hq : (toggleQueued k t).pending = List.replicate k Toggle.request := by
    rw [toggleQueued_eq]; simp [hp]
  have hf1 : getProp (toggleQueued k t).props "onToggle" = .fn f := by
    rw [toggleQueued_eq]; exact hf
  obtain ⟨t1, h0, h1, _, _, h4, _, _⟩ := flush_requests (toggleQueued k t) f k hf1 hq
  obtain ⟨t2, g0, g1, _⟩ := toggleSeq_ok k t f hf hp
  have h1b : t1.state.isOn = xor t.state.isOn (decide (k % 2 = 1)) := by
    rw [h1, toggleQueued_eq]
  exact ⟨t1, t2, h0, g0, by rw [h1b, g1], h1b,
    by rw [h1b, nthToggleValue, nthState_isOn], h4⟩

/-- Witness of C3: three queued toggles on a fresh instance. -/
theorem queued_toggles_not_lost_witness :
    getProp (Toggle.new 1 [("onToggle", .fn 5)]).props "onToggle" = .fn 5
      ∧ (Toggle.new 1 [("onToggle", .fn 5)]).pending = []
      ∧ ∃ t1 t2, flush (toggleQueued 3 (Toggle.new 1 [("onToggle", .fn 5)])) = .ok t1
          ∧ toggleSeq 3 (Toggle.new 1 [("onToggle", .fn 5)]) = .ok t2
          ∧ t1.state.isOn = t2.state.isOn
          ∧ t1.state.isOn = xor (Toggle.new 1 [("onToggle", .fn 5)]).state.isOn (decide (3 % 2 = 1))
          ∧ t1.state.isOn = nthToggleValue (Toggle.new 1 [("onToggle", .fn 5)]).state 3
          ∧ t1.pending = [] :=
  ⟨by decide, rfl,
    queued_toggles_not_lost (Toggle.new 1 [("onToggle", .fn 5)]) 5 3 (by decide) rfl⟩

/-- A Toggle whose `onToggle` is the bound `toggle` of another instance: its own
`toggle()` is committed and the callback completes without raising. -/
theorem toggle_with_foreign_toggle_completes :
    ∃ t1, toggleCommitted (Toggle.new 2 [("onToggle", .toggleFn 1)]) = .ok t1
      ∧ t1.state.isOn = true ∧ t1.calls = [] :=
  ⟨_, rfl, rfl, rfl⟩

/-- C4 as stated fails: a Toggle constructed without `onToggle`.  The state is
computed, then the completion callback calls `undefined` and a `TypeError` is
raised. -/
theorem toggle_without_onToggle_raises :
    (processUpdateQueue (Toggle.toggle (Toggle.new 1 []))).state.isOn = true
      ∧ toggleCommitted (Toggle.new 1 [])
        = .error (.typeError "this.props.onToggle is not a function") :=
  ⟨rfl, rfl⟩

/-- C4, amended: for every Toggle instance with nothing pending whose
`onToggle` is a caller-defined function, `toggle()` followed by its commit
completes without raising and flips `on`; `Usage` rendered without `onToggle`
hands its diagnostic stub to the Toggle, whose `toggle()` then completes and
calls the stub once; and the state transition itself is defined for every
instance, whatever its props. -/
theorem toggle_completes_with_callback (t : Toggle) (f : Nat)
    (hf : getProp t.props "onToggle" = .fn f) (hp : t.pending = []) :
    (∃ t1, toggleCommitted t = .ok t1 ∧ t1.state.isOn = (!t.state.isOn))
      ∧ getProp (Usage .undefined).props "onToggle" = consoleLogStub
      ∧ (∀ self, ∃ t1, toggleCommitted ((Usage .undefined).mount self) = .ok t1
          ∧ t1.state.isOn = true ∧ t1.calls = [⟨0, .bool true⟩])
      ∧ (∀ u : Toggle, u.pending = [] →
          (processUpdateQueue (Toggle.toggle u)).state.isOn = (!u.state.isOn)) := by
  refine ⟨?_, by decide, ?_, ?_⟩
  · obtain ⟨t1, h0, h1, _⟩ := toggleCommitted_ok t f hf hp
    exact ⟨t1, h0, h1⟩
  · intro self
    exact ⟨_, rfl, rfl, rfl⟩
  · intro u hu
    have hq : (Toggle.toggle u).pending = [Toggle.request] := by
      rw [toggle_pending, hu]; rfl
    simp only [processUpdateQueue, hq, List.foldl]
    simp [applyUpdate, assign, Toggle.request, Toggle.updater, Toggle.toggle, setState]

/-- Witness of the amended C4: one toggle on a fresh instance with a callback. -/
theorem toggle_completes_with_callback_witness :
    getProp (Toggle.new 1 [("onToggle", .fn 5)]).props "onToggle" = .fn 5
      ∧ (Toggle.new 1 [("onToggle", .fn 5)]).pending = []
      ∧ ∃ t1, toggleCommitted (Toggle.new 1 [("onToggle", .fn 5)]) = .ok t1
          ∧ t1.state.isOn = (!(Toggle.new 1 [("onToggle", .fn 5)]).state.isOn) :=
  ⟨by decide, rfl,
    (toggle_completes_with_callback (Toggle.new 1 [("onToggle", .fn 5)]) 5 (by decide) rfl).1⟩

/-! ## The context channel -/

theorem foldl_getProp_absent (k : String) (props : Props) (acc : JSVal)
    (h : hasAttr props k = false) :
    props.foldl (fun acc kv => if kv.1 = k then kv.2 else acc) acc = acc := by
  induction props generalizing acc with
  | nil => rfl
  | cons kv rest ih =>
    simp only [hasAttr, List.any_cons, Bool.or_eq_false_iff, beq_eq_false_iff_ne, ne_eq] at h
    simp only [List.foldl_cons, if_neg h.1]
    exact ih acc (by simpa [hasAttr] using h.2)

theorem broadcast_state (t : Toggle) (h : hasAttr t.props "value" = false) :
    Toggle.broadcast t = .state t.state := by
  simp only [Toggle.broadcast, Toggle.providerAttrs, getProp, List.foldl_cons]
  exact foldl_getProp_absent "value" t.props _ h

/-- A `Toggle.Consumer` mounted with no Toggle above it raises the usage error,
whatever its children. -/
theorem consumer_outside_raises (children : Node) :
    mountTree (Toggle.Consumer children) = .error usageError := rfl

/-- Under a Toggle whose props carry no `value` attribute, a `Toggle.Consumer`
with a render function evaluates to what the function returns for the state
object. -/
theorem consumer_under_toggle (t : Toggle) (f : JSVal → Node)
    (h : hasAttr t.props "value" = false) :
    mountTree (Toggle.render t (Toggle.Consumer (.func f)))
      = evalNode (.state t.state) (f (.state t.state)) := by
  have hb := broadcast_state t h
  simp only [Toggle.broadcast] at hb
  simp only [mountTree, Toggle.render, Toggle.ui, Toggle.Consumer, ToggleConsumer, evalNode, hb,
    ToggleConsumer.guard, truthy, callChildren]
  rfl

/-- C5, the code at the failing input: a `Toggle.Consumer` nested directly
under a Toggle that was given the pass-through attribute `value={null}` raises
the usage error, although a Toggle encloses it. -/
theorem nested_consumer_raises_with_value_attr :
    mountTree
        (Toggle.render (Toggle.new 1 [("onToggle", .fn 3), ("value", .null)])
          (Toggle.Consumer (.func fun _ => .text "inside")))
      = .error usageError
    ∧ usageError = .error "Toggle.Consumer cannot be rendered outside the Toggle component" :=
  ⟨rfl, rfl⟩

/-- C6, the code at the failing input: a Toggle given the pass-through
attribute `value="mine"` broadcasts that string, not its state object, and a
Consumer below it receives the string. -/
theorem broadcast_replaced_by_value_attr :
    Toggle.broadcast (Toggle.new 1 [("onToggle", .fn 3), ("value", .str "mine")]) = .str "mine"
    ∧ Toggle.broadcast (Toggle.new 1 [("onToggle", .fn 3), ("value", .str "mine")])
        ≠ .state (Toggle.new 1 [("onToggle", .fn 3), ("value", .str "mine")]).state
    ∧ mountTree
        (Toggle.render (Toggle.new 1 [("onToggle", .fn 3), ("value", .str "mine")])
          (Toggle.Consumer (.func fun c => .switch c c)))
      = .ok [.switch (.str "mine") (.str "mine")] :=
  ⟨by decide, by decide, rfl⟩

/-- C8 as stated fails: `null` is a context value other than the unset
sentinel `undefined`, yet the guard raises the usage error for it instead of
returning what the render function returns; so does a Consumer evaluated under
a Provider whose value is `null`. -/
theorem guard_rejects_falsy_value :
    JSVal.null ≠ ToggleContext.defaultValue
      ∧ ToggleConsumer.guard (.func fun _ => .text "rendered") .null = .raise usageError
      ∧ ToggleConsumer.guard (.func fun _ => .text "rendered") .null
          ≠ (fun _ => Node.text "rendered") JSVal.null
      ∧ mountTree (.provider [("value", .null)] (Toggle.Consumer (.func fun _ => .text "rendered")))
          = .error usageError
      ∧ evalNode .null ((fun _ => Node.text "rendered") JSVal.null) = .ok [.text "rendered"] :=
  ⟨by decide, rfl, fun h => Node.noConfusion h, rfl, rfl⟩

/-- C8, amended: for every truthy context value `c` (every `{on, toggle}` state
object is one) and every render function `f`, the guard returns exactly `f(c)`,
and under a Provider whose value is `c` the guarded Consumer evaluates to what
`f(c)` evaluates to; for every value, truthy or not, the guard returns `f(c)`
when `c` is truthy and raises the usage error otherwise. -/
theorem guard_success (f : JSVal → Node) (c : JSVal) (hc : truthy c = true) :
    ToggleConsumer.guard (.func f) c = f c
      ∧ mountTree (.provider [("value", c)] (Toggle.Consumer (.func f))) = evalNode c (f c)
      ∧ (∀ o : StateObj, truthy (.state o) = true
          ∧ ToggleConsumer.guard (.func f) (.state o) = f (.state o))
      ∧ (∀ d : JSVal,
          ToggleConsumer.guard (.func f) d = (if truthy d then f d else .raise usageError)) := by
  have hg : ToggleConsumer.guard (.func f) c = f c := by
    simp [ToggleConsumer.guard, hc, callChildren]
  refine ⟨hg, ?_, fun o => ⟨rfl, rfl⟩, ?_⟩
  · have hv : getProp [("value", c)] "value" = c := by simp [getProp]
    simp only [mountTree, Toggle.Consumer, ToggleConsumer, evalNode, hv, hg]
  · intro d
    cases h : truthy d <;> simp [ToggleConsumer.guard, h, callChildren]

/-- Witness of the amended C8: the state object of a fresh instance. -/
theorem guard_success_witness :
    truthy (.state (Toggle.new 1 []).state) = true
      ∧ ToggleConsumer.guard (.func fun c => .switch c c) (.state (Toggle.new 1 []).state)
          = (fun c => Node.switch c c) (.state (Toggle.new 1 []).state) :=
  ⟨rfl, (guard_success (fun c => .switch c c) (.state (Toggle.new 1 []).state) rfl).1⟩

/-- C9: `render` hands a function child the live state object and renders what
it returns; a child that is not a function is rendered as it is, for every
state; the choice depends only on whether the child is callable. -/
theorem children_polymorphism (t : Toggle) (f : JSVal → Node) (c : Node)
    (hc : isFunction c = false) :
    Toggle.ui t (.func f) = f (.state t.state)
      ∧ Toggle.ui t c = c
      ∧ (∀ t2 : Toggle, Toggle.ui t2 c = Toggle.ui t c)
      ∧ Toggle.render t (.func f) = .provider (Toggle.providerAttrs t) (f (.state t.state))
      ∧ Toggle.render t c = .provider (Toggle.providerAttrs t) c := by
  have h : ∀ u : Toggle, Toggle.ui u c = c := by
    intro u
    cases c <;> first | rfl | simp [isFunction] at hc
  refine ⟨rfl, h t, fun t2 => by rw [h t2, h t], rfl, ?_⟩
  simp only [Toggle.render, h t]

/-- Witness of C9: a text child under an instance that is on and one that is
off. -/
theorem children_polymorphism_witness :
    isFunction (.text "static") = false
      ∧ Toggle.ui (Toggle.new 1 []) (.text "static") = .text "static"
      ∧ Toggle.ui { Toggle.new 1 [] with state := { ref := 4, isOn := true, toggle := 1 } }
          (.text "static") = Toggle.ui (Toggle.new 1 []) (.text "static") :=
  ⟨rfl,
    (children_polymorphism (Toggle.new 1 []) (fun _ => .empty) (.text "static") rfl).2.1,
    (children_polymorphism (Toggle.new 1 []) (fun _ => .empty) (.text "static") rfl).2.2.1 _⟩

/-! ## Reachable states -/

/-- Every run of events from an instance whose queue holds only toggle requests
and whose `onToggle` is a caller-defined function succeeds; the props, the
`toggle` field of the state and the identity of the instance are those it
started with, and the queue still holds only toggle requests. -/
theorem run_ok (evs : List Event) (t : Toggle) (f k : Nat)
    (hf : getProp t.props "onToggle" = .fn f)
    (hp : t.pending = List.replicate k Toggle.request) :
    ∃ t1 k1, run evs t = .ok t1
      ∧ t1.props = t.props
      ∧ t1.state.toggle = t.state.toggle
      ∧ t1.self = t.self
      ∧ t1.pending = List.replicate k1 Toggle.request := by
  induction evs generalizing t k with
  | nil => exact ⟨t, k, rfl, rfl, rfl, rfl, hp⟩
  | cons e es ih =>
    cases e with
    | toggle =>
      have hp1 : (Toggle.toggle t).pending = List.replicate (k + 1) Toggle.request := by
        rw [toggle_pending, hp, List.replicate_succ']
      obtain ⟨t1, k1, h0, h1, h2, h3, h4⟩ := ih (Toggle.toggle t) (k + 1) hf hp1
      exact ⟨t1, k1, by simpa only [run] using h0, h1, h2, h3, h4⟩
    | commit =>
      obtain ⟨t0, g0, _, g2, g3, g4, g5, _⟩ := flush_requests t f k hf hp
      obtain ⟨t1, k1, h0, h1, h2, h3, h4⟩ := ih t0 0 (by rw [g3]; exact hf) (by rw [g4]; rfl)
      refine ⟨t1, k1, ?_, by rw [h1, g3], by rw [h2, g2], by rw [h3, g5], h4⟩
      simp only [run, g0, h0]

theorem flush_idle (t : Toggle) (hp : t.pending = []) : flush t = .ok t := by
  cases t
  simp only at hp
  subst hp
  rfl

theorem run_commits_idle (m : Nat) (t : Toggle) (hp : t.pending = []) :
    run (List.replicate m .commit) t = .ok t := by
  induction m with
  | zero => rfl
  | succ m ih => simp only [List.replicate_succ, run, flush_idle t hp, ih]

/-- C7: in every state an instance reaches from its construction (props with a
caller-defined `onToggle` and no `value` attribute), `render` broadcasts
`this.state` itself; when nothing is pending, any number of commits without a
`toggle()` leaves the instance, and with it the broadcast object, the same;
the `toggle` member of every broadcast is the bound `toggle` of the instance;
and applying a toggle request leaves the `toggle` field as it was. -/
theorem reference_stability (self : Nat) (props : Props) (f : Nat) (evs : List Event)
    (hf : getProp props "onToggle" = .fn f) (hv : hasAttr props "value" = false) :
    ∃ t, run evs (Toggle.new self props) = .ok t
      ∧ Toggle.broadcast t = .state t.state
      ∧ (t.pending = [] → ∀ m, ∃ t2, run (List.replicate m .commit) t = .ok t2
          ∧ Toggle.broadcast t2 = Toggle.broadcast t ∧ t2.state.ref = t.state.ref)
      ∧ (Toggle.broadcast t).field "toggle" = .toggleFn self
      ∧ (applyUpdate t Toggle.request).state.toggle = t.state.toggle
      ∧ (applyUpdate t Toggle.request).state.isOn = (!t.state.isOn) := by
  obtain ⟨t, k1, h0, h1, h2, _, _⟩ :=
    run_ok evs (Toggle.new self props) f 0 hf rfl
  have hb : Toggle.broadcast t = .state t.state :=
    broadcast_state t (by rw [h1]; exact hv)
  refine ⟨t, h0, hb, ?_, ?_, ?_, ?_⟩
  · intro hp m
    exact ⟨t, run_commits_idle m t hp, rfl, rfl⟩
  · rw [hb]
    simp only [JSVal.field, h2]
    simp [Toggle.new]
  · simp [applyUpdate, assign, Toggle.request, Toggle.updater]
  · simp [applyUpdate, assign, Toggle.request, Toggle.updater]

/-- Witness of C7: the state reached by one committed toggle. -/
theorem reference_stability_witness :
    getProp [("onToggle", .fn 5)] "onToggle" = .fn 5
      ∧ hasAttr [("onToggle", .fn 5)] "value" = false
      ∧ ∃ t, run [.toggle, .commit] (Toggle.new 1 [("onToggle", .fn 5)]) = .ok t
          ∧ Toggle.broadcast t = .state t.state
          ∧ (t.pending = [] → ∀ m, ∃ t2, run (List.replicate m .commit) t = .ok t2
              ∧ Toggle.broadcast t2 = Toggle.broadcast t ∧ t2.state.ref = t.state.ref)
          ∧ (Toggle.broadcast t).field "toggle" = .toggleFn 1
          ∧ (applyUpdate t Toggle.request).state.toggle = t.state.toggle
          ∧ (applyUpdate t Toggle.request).state.isOn = (!t.state.isOn) :=
  ⟨by decide, by decide,
    reference_stability 1 [("onToggle", .fn 5)] 5 [.toggle, .commit] (by decide) (by decide)⟩

/-! ## The Usage tree -/

theorem usage_view (v : JSVal) (t : Toggle) (hprops : t.props = [("onToggle", v)]) :
    mountTree (Toggle.render t Layer1)
      = .ok [.text (if t.state.isOn then "The button is on" else "The button is off"),
             .switch (.bool t.state.isOn) (.toggleFn t.state.toggle)] := by
  have hb : getProp (Toggle.providerAttrs t) "value" = .state t.state :=
    broadcast_state t (by rw [hprops]; simp [hasAttr])
  simp only [mountTree, Toggle.render, Toggle.ui, Layer1, Layer2, Layer3, Layer4,
    Toggle.Consumer, ToggleConsumer, evalNode, hb, ToggleConsumer.guard, truthy,
    callChildren, destructuring, JSVal.field]
  simp

/-- C10: `Usage` with a caller-defined `onToggle`, mounted with `on = false`,
renders the text "The button is off" and a Switch that receives `on = false`
and the instance's `toggle` as `onClick`; one click commits `on = true`, calls
`onToggle(true)` exactly once and the text becomes "The button is on"; in every
state the instance reaches the text is "The button is on" exactly when `on` is
true, and the Switch receives the current `on`. -/
theorem usage_end_to_end (f self : Nat) :
    (Usage (.fn f)).view ((Usage (.fn f)).mount self)
        = .ok [.text "The button is off", .switch (.bool false) (.toggleFn self)]
      ∧ (∃ t1, click (.toggleFn self) ((Usage (.fn f)).mount self) = .ok t1
          ∧ t1.state.isOn = true
          ∧ t1.calls = [⟨f, .bool true⟩]
          ∧ (Usage (.fn f)).view t1
              = .ok [.text "The button is on", .switch (.bool true) (.toggleFn self)])
      ∧ (∀ evs : List Event, ∃ t, run evs ((Usage (.fn f)).mount self) = .ok t
          ∧ (Usage (.fn f)).view t
              = .ok [.text (if t.state.isOn then "The button is on" else "The button is off"),
                     .switch (.bool t.state.isOn) (.toggleFn self)]) := by
  have hprops : ((Usage (.fn f)).mount self).props = [("onToggle", .fn f)] := by
    simp [Usage, ToggleElement.mount, Toggle.new]
  have hf : getProp ((Usage (.fn f)).mount self).props "onToggle" = .fn f := by
    rw [hprops]; simp [getProp]
  refine ⟨?_, ?_, ?_⟩
  · simp only [ToggleElement.view]
    rw [show (Usage (.fn f)).children = Layer1 from rfl, usage_view (.fn f) _ hprops]
    simp [ToggleElement.mount, Toggle.new]
  · obtain ⟨t1, h0, h1, h2, h3, _, _, h6⟩ :=
      toggleCommitted_ok ((Usage (.fn f)).mount self) f hf rfl
    have hon : t1.state.isOn = true := by
      rw [h1]; simp [ToggleElement.mount, Toggle.new]
    refine ⟨t1, ?_, hon, ?_, ?_⟩
    · have : invoke (.toggleFn self) ((Usage (.fn f)).mount self)
          = .ok (Toggle.toggle ((Usage (.fn f)).mount self)) := by
        simp [invoke, ToggleElement.mount, Toggle.new]
      simp only [click, this]
      exact h0
    · rw [h6]; simp [ToggleElement.mount, Toggle.new]
    · simp only [ToggleElement.view]
      rw [show (Usage (.fn f)).children = Layer1 from rfl,
        usage_view (.fn f) t1 (by rw [h3, hprops]), hon, h2]
      simp [ToggleElement.mount, Toggle.new]
  · intro evs
    obtain ⟨t, _, h0, h1, h2, _, _⟩ := run_ok evs ((Usage (.fn f)).mount self) f 0 hf rfl
    refine ⟨t, h0, ?_⟩
    simp only [ToggleElement.view]
    rw [show (Usage (.fn f)).children = Layer1 from rfl,
      usage_view (.fn f) t (by rw [h1, hprops]), h2]
    simp [ToggleElement.mount, Toggle.new]

end ToggleProvider
